import Mathlib

/-!
Verification development for the fleet-transition MILP pipeline
(`optimizer.py`: model builder, constraint generator, solver adapter,
solution decoder).

The embedding is shallow: Python floats become `ℚ`, Python dicts become
association lists (`alookup` scans from the head, so prepending a binding
mirrors dict overwrite semantics), and the mutable `OptimizationModel`
accumulator becomes explicit state passing.  Python `int(round(v))` is
round-half-to-even (`iround`).  Variables are referenced by their integer
index, exactly as the source keeps `var_map` indices in the `*_vars`
dicts.  A constraint is stored as its term list plus a lower/upper row
bound (`none` standing for plus/minus infinity), exactly the shape
`add_constraint` produces for the sparse solver input.

Direct dict indexing in Python (`d[k]`) raises `KeyError` on a missing
key; the embedding uses `dget` (lookup with default `0`) at those sites
and separately proves that every such access happens on a present key
(the `StOK` invariants and the `presence` lemmas), so the default is
never exercised on the executions the claims quantify over.
-/

/-- Python `int(round(v))`: round half to even, expressed through the
numerator/denominator of the rational so that it evaluates by kernel
reduction.  `2 * (q.num - ⌊q⌋ * q.den) < q.den` says the fractional part
is below one half. -/
def iround (q : ℚ) : Int :=
  let f := ⌊q⌋
  let r2 := 2 * (q.num - f * q.den)
  if r2 < (q.den : Int) then f
  else if (q.den : Int) < r2 then f + 1
  else if f % 2 = 0 then f else f + 1

/-- Association-list lookup, scanning from the head (newest binding wins,
matching Python dict update semantics for the prepend-on-insert encoding
used below). -/
def alookup {α β : Type} [DecidableEq α] : List (α × β) → α → Option β
  | [], _ => none
  | (k, v) :: rest, key => if key = k then some v else alookup rest key

/-- Dict access with default `0`: stands for Python `d[k]` at sites where
the key is provably present (see the presence lemmas). -/
def dget {α : Type} [DecidableEq α] (l : List (α × Nat)) (key : α) : Nat :=
  (alookup l key).getD 0

/-- Python `range(lo, lo+n)` as a list of integers. -/
def intRange (lo : Int) (n : Nat) : List Int :=
  (List.range n).map fun k => lo + Int.ofNat k

/-- One decision variable as `OptimizationModel.add_variable` records it:
name, integrality flag (`1` for integer, `0` for continuous), bounds
(`lb = 0`, `ub = none` i.e. `np.inf` — every call site uses the
defaults), and objective coefficient. -/
structure VarDecl where
  name : String
  vtype : Nat
  lb : ℚ
  ub : Option ℚ
  obj : ℚ
  deriving DecidableEq

/-- Constraint sense as passed to `add_constraint`. -/
inductive Sense
  | eq
  | le
  | ge
  deriving DecidableEq

/-- One constraint row: term list `(coeff, var_idx)` plus the row bounds
`add_constraint` derives from the sense (`none` is an infinite bound). -/
structure Constr where
  terms : List (ℚ × Nat)
  lb : Option ℚ
  ub : Option ℚ
  deriving DecidableEq

/-- `add_constraint`: sense `==` gives `lb = ub = rhs`, `<=` gives
`(-inf, rhs]`, `>=` gives `[rhs, inf)`. -/
def mkConstr (terms : List (ℚ × Nat)) : Sense → ℚ → Constr
  | Sense.eq, rhs => ⟨terms, some rhs, some rhs⟩
  | Sense.le, rhs => ⟨terms, none, some rhs⟩
  | Sense.ge, rhs => ⟨terms, some rhs, none⟩

/-- The parameter index built by `solve_optimization` from the input
tables.  The list fields are the sorted unique key sets; the map fields
are the dict lookups (`Option` models dict membership, `.getD 0` models
`.get(k, 0)`).  `demand` is the lookup `demand_dict[(t, s, d)]`, total on
the iterated keys (a missing key would raise in Python). -/
structure Inputs where
  years : List Int
  sizes : List String
  distances : List String
  vehicle_types : List String
  fuels : List String
  demand : Int → String → String → ℚ
  emission_targets : Int → ℚ
  vehicle_cost : String → String → Int → Option ℚ
  vehicle_range : String → String → Int → Option ℚ
  fuel_cost : String → Int → Option ℚ
  fuel_emissions : String → Int → Option ℚ
  consumption : String → String → Int → String → Option ℚ
  resale_profile : Int → Option ℚ
  insurance_profile : Int → Option ℚ
  maintenance_profile : Int → Option ℚ

/-- The in-progress model: the growing `add_variable` list plus the five
key-to-index registries (`buy_vars` … `km_vars`). -/
structure VarState where
  decls : List VarDecl
  buy_vars : List ((Int × String × String) × Nat)
  fleet_vars : List ((Int × String × String × Int) × Nat)
  sell_vars : List ((Int × String × String × Int) × Nat)
  use_vars : List ((Int × String × String × String × String) × Nat)
  km_vars : List ((Int × String × String × String × String) × Nat)

def emptyVarState : VarState := ⟨[], [], [], [], [], []⟩

/-- `model.add_variable(name, var_type, obj=obj)` with default bounds:
appends the declaration and returns the fresh index. -/
def addVariable (st : VarState) (name var_type : String) (obj : ℚ) : VarState × Nat :=
  ({ st with decls := st.decls ++ [⟨name, if var_type = "integer" then 1 else 0, 0, none, obj⟩] },
   st.decls.length)

def addBuy (st : VarState) (k : Int × String × String) (name : String) (obj : ℚ) : VarState :=
  let p := addVariable st name "continuous" obj
  { p.1 with buy_vars := (k, p.2) :: p.1.buy_vars }

def addFleet (st : VarState) (k : Int × String × String × Int) (name : String) (obj : ℚ) : VarState :=
  let p := addVariable st name "continuous" obj
  { p.1 with fleet_vars := (k, p.2) :: p.1.fleet_vars }

def addSell (st : VarState) (k : Int × String × String × Int) (name : String) (obj : ℚ) : VarState :=
  let p := addVariable st name "continuous" obj
  { p.1 with sell_vars := (k, p.2) :: p.1.sell_vars }

def addUse (st : VarState) (k : Int × String × String × String × String) (name : String) (obj : ℚ) : VarState :=
  let p := addVariable st name "continuous" obj
  { p.1 with use_vars := (k, p.2) :: p.1.use_vars }

def addKm (st : VarState) (k : Int × String × String × String × String) (name : String) (obj : ℚ) : VarState :=
  let p := addVariable st name "continuous" obj
  { p.1 with km_vars := (k, p.2) :: p.1.km_vars }

def buyName (t : Int) (v s : String) : String :=
  "Buy_" ++ toString t ++ "_" ++ v ++ "_" ++ s

def fleetName (t : Int) (v s : String) (age : Int) : String :=
  "Fleet_" ++ toString t ++ "_" ++ v ++ "_" ++ s ++ "_" ++ toString age

def sellName (t : Int) (v s : String) (age : Int) : String :=
  "Sell_" ++ toString t ++ "_" ++ v ++ "_" ++ s ++ "_" ++ toString age

def useName (t : Int) (v s d f : String) : String :=
  "Use_" ++ toString t ++ "_" ++ v ++ "_" ++ s ++ "_" ++ d ++ "_" ++ f

def kmName (t : Int) (v s d f : String) : String :=
  "Km_" ++ toString t ++ "_" ++ v ++ "_" ++ s ++ "_" ++ d ++ "_" ++ f

/-- The Fleet loop (ages 0–10, guarded by `t - age >= 2023`, holding cost
`price * (maint% + ins%) / 100` with the price frozen at the purchase
year `t - age`). -/
def perClassFleet (I : Inputs) (st : VarState) (t : Int) (v s : String) : VarState :=
  (intRange 0 11).foldl
    (fun st2 age =>
      if 2023 ≤ t - age then
        addFleet st2 (t, v, s, age) (fleetName t v s age)
          ((I.vehicle_cost v s (t - age)).getD 0 *
            ((I.maintenance_profile age).getD 0 / 100 + (I.insurance_profile age).getD 0 / 100))
      else st2)
    st

/-- The Sell loop (ages 1–10, same guard, objective `-1 * price *
resale% / 100`). -/
def perClassSell (I : Inputs) (st : VarState) (t : Int) (v s : String) : VarState :=
  (intRange 1 10).foldl
    (fun st2 age =>
      if 2023 ≤ t - age then
        addSell st2 (t, v, s, age) (sellName t v s age)
          (-1 * (I.vehicle_cost v s (t - age)).getD 0 * ((I.resale_profile age).getD 0 / 100))
      else st2)
    st

/-- The Use & Km loop: for each distance bucket and fuel, a pair of
variables is created exactly when `(v, s, t, f)` is a key of the
consumption dict; the Km objective is `consumption * fuel_cost`. -/
def perClassDuty (I : Inputs) (st : VarState) (t : Int) (v s : String) : VarState :=
  I.distances.foldl
    (fun stD d =>
      I.fuels.foldl
        (fun stF f =>
          match I.consumption v s t f with
          | some cons =>
              addKm (addUse stF (t, v, s, d, f) (useName t v s d f) 0)
                (t, v, s, d, f) (kmName t v s d f) (cons * (I.fuel_cost f t).getD 0)
          | none => stF)
        stD)
    st

/-- Variable creation for one `(t, v, s)` iteration of the triple loop:
Buy, then Fleet ages, then Sell ages, then Use/Km duty pairs. -/
def perClass (I : Inputs) (st : VarState) (t : Int) (v s : String) : VarState :=
  perClassDuty I
    (perClassSell I
      (perClassFleet I
        (addBuy st (t, v, s) (buyName t v s) ((I.vehicle_cost v s t).getD 0))
        t v s)
      t v s)
    t v s

/-- The `(t, v, s)` triples in loop-nest order (year, vehicle type, size). -/
def classTriples (I : Inputs) : List (Int × String × String) :=
  I.years.flatMap fun t => I.vehicle_types.flatMap fun v => I.sizes.map fun s => (t, v, s)

/-- The full variable-creation phase of `solve_optimization`. -/
def createVars (I : Inputs) : VarState :=
  (classTriples I).foldl (fun st p => perClass I st p.1 p.2.1 p.2.2) emptyVarState

/-- Fleet-dynamics constraints for one `(t, v, s)`: the age-0 identity
`Fleet(t,0) - Buy(t) == 0`, then for each age 1–10 with `t - age >= 2023`
the recurrence `Fleet(t,age) + Sell(t,age) [- Fleet(t-1,age-1)] == 0`
(the previous-year term only when `t > 2023`) and, when `t > 2023`, the
bound `Sell(t,age) - Fleet(t-1,age-1) <= 0`. -/
def fleetDynFor (vars : VarState) (t : Int) (v s : String) : List Constr :=
  mkConstr [(1, dget vars.fleet_vars (t, v, s, 0)), (-1, dget vars.buy_vars (t, v, s))] Sense.eq 0
  :: (intRange 1 10).flatMap fun age =>
      if 2023 ≤ t - age then
        mkConstr
          ([(1, dget vars.fleet_vars (t, v, s, age)), (1, dget vars.sell_vars (t, v, s, age))]
            ++ (if 2023 < t then [((-1 : ℚ), dget vars.fleet_vars (t - 1, v, s, age - 1))] else []))
          Sense.eq 0
        :: (if 2023 < t then
              [mkConstr [(1, dget vars.sell_vars (t, v, s, age)),
                         (-1, dget vars.fleet_vars (t - 1, v, s, age - 1))] Sense.le 0]
            else [])
      else []

/-- Constraint family 1 (Fleet Dynamics), in emission order. -/
def fleetDynConstraints (I : Inputs) (vars : VarState) : List Constr :=
  I.years.flatMap fun t => I.vehicle_types.flatMap fun v => I.sizes.flatMap fun s =>
    fleetDynFor vars t v s

/-- The demand-coverage term list for one cell: one `(1, Km-index)` term
per vehicle type and fuel whose Km variable exists. -/
def demandTerms (I : Inputs) (vars : VarState) (t : Int) (s d : String) : List (ℚ × Nat) :=
  I.vehicle_types.flatMap fun v => I.fuels.filterMap fun f =>
    (alookup vars.km_vars (t, v, s, d, f)).map fun i => ((1 : ℚ), i)

/-- Demand-family constraints for one cell `(t, s, d)`: the equality
`Sum(Km) == demand`, followed by one link `Km - range * Use <= 0` per
existing Km variable (the range defaulting to 0 when missing, as
`vehicle_range.get((v, s, t), 0)` does). -/
def demandFor (I : Inputs) (vars : VarState) (t : Int) (s d : String) : List Constr :=
  mkConstr (demandTerms I vars t s d) Sense.eq (I.demand t s d)
  :: (I.vehicle_types.flatMap fun v => I.fuels.filterMap fun f =>
      (alookup vars.km_vars (t, v, s, d, f)).map fun i =>
        mkConstr [((1 : ℚ), i),
                  (-(I.vehicle_range v s t).getD 0, dget vars.use_vars (t, v, s, d, f))]
          Sense.le 0)

/-- Constraint family 2 (Demand Satisfaction plus Km–Use links), in
emission order. -/
def demandConstraints (I : Inputs) (vars : VarState) : List Constr :=
  I.years.flatMap fun t => I.sizes.flatMap fun s => I.distances.flatMap fun d =>
    demandFor I vars t s d

/-- Constraint family 3 (Usage Limit): per `(t, v, s)`,
`Sum(Use) - Sum(Fleet) <= 0`. -/
def usageFor (I : Inputs) (vars : VarState) (t : Int) (v s : String) : Constr :=
  mkConstr
    ((I.distances.flatMap fun d => I.fuels.filterMap fun f =>
        (alookup vars.use_vars (t, v, s, d, f)).map fun i => ((1 : ℚ), i))
      ++ ((intRange 0 11).filterMap fun age =>
        (alookup vars.fleet_vars (t, v, s, age)).map fun i => ((-1 : ℚ), i)))
    Sense.le 0

def usageConstraints (I : Inputs) (vars : VarState) : List Constr :=
  I.years.flatMap fun t => I.vehicle_types.flatMap fun v => I.sizes.map fun s =>
    usageFor I vars t v s

/-- The emission term list for one year: per existing Km variable the
coefficient `consumption[(v, s, t, f)] * fuel_emissions.get((f, t), 0)`.
The direct dict access on `consumption` is total here because every Km
key has a consumption entry (invariant `StOK.kmKeys`). -/
def emissionTerms (I : Inputs) (vars : VarState) (t : Int) : List (ℚ × Nat) :=
  I.vehicle_types.flatMap fun v => I.sizes.flatMap fun s =>
    I.distances.flatMap fun d => I.fuels.filterMap fun f =>
      (alookup vars.km_vars (t, v, s, d, f)).map fun i =>
        ((I.consumption v s t f).getD 0 * (I.fuel_emissions f t).getD 0, i)

/-- Constraint family 4 (Emission Targets): one `<=` row per year. -/
def emissionConstraints (I : Inputs) (vars : VarState) : List Constr :=
  I.years.map fun t => mkConstr (emissionTerms I vars t) Sense.le (I.emission_targets t)

/-- All constraints in the order `solve_optimization` adds them. -/
def allConstraints (I : Inputs) (vars : VarState) : List Constr :=
  fleetDynConstraints I vars ++ demandConstraints I vars
    ++ usageConstraints I vars ++ emissionConstraints I vars

/-- One output plan record (a row of `submission.csv`).  Non-Use rows
carry empty `fuel`/`distance_bucket` strings and no
`distance_per_vehicle` (Python stores `''` there; `none` models it). -/
structure SubRow where
  year : Int
  id : String
  num_vehicles : Int
  rtype : String
  fuel : String
  distance_bucket : String
  distance_per_vehicle : Option ℚ
  deriving DecidableEq

/-- A vintage batch in the decoder pool: composite id and remaining
count. -/
structure Batch where
  id : String
  count : Int
  deriving DecidableEq

/-- The composite vehicle id `{type}_{size}_{year}`. -/
def vid (v s : String) (year : Int) : String :=
  v ++ "_" ++ s ++ "_" ++ toString year

/-- Buy and Sell record extraction (decoder, first pass): one Buy row per
positive rounded Buy value, one Sell row per existing Sell variable with
positive rounded value, tagged with the inferred purchase year `t - age`. -/
def buySellRows (I : Inputs) (vars : VarState) (x : Nat → ℚ) : List SubRow :=
  I.years.flatMap fun t => I.vehicle_types.flatMap fun v => I.sizes.flatMap fun s =>
    (if 0 < iround (x (dget vars.buy_vars (t, v, s))) then
        [⟨t, vid v s t, iround (x (dget vars.buy_vars (t, v, s))), "Buy", "", "", none⟩]
      else [])
    ++ (intRange 1 10).flatMap fun age =>
        match alookup vars.sell_vars (t, v, s, age) with
        | some idx =>
            if 0 < iround (x idx) then
              [⟨t, vid v s (t - age), iround (x idx), "Sell", "", "", none⟩]
            else []
        | none => []

/-- The year-`t` availability pool for one vehicle class: carried-over
batches `Fleet[t-1, age]` (ages 0–10, purchase year `(t-1) - age`, only
positive rounded counts, only when `t > 2023`) followed by this year's
Buy batch. -/
def buildPool (vars : VarState) (x : Nat → ℚ) (t : Int) (v s : String) : List Batch :=
  (if 2023 < t then
      (intRange 0 11).filterMap fun age =>
        match alookup vars.fleet_vars (t - 1, v, s, age) with
        | some idx =>
            if 0 < iround (x idx) then some ⟨vid v s (t - 1 - age), iround (x idx)⟩ else none
        | none => none
    else [])
  ++ (if 0 < iround (x (dget vars.buy_vars (t, v, s))) then
        [⟨vid v s t, iround (x (dget vars.buy_vars (t, v, s)))⟩]
      else [])

/-- One duty of a vehicle class in a year: distance bucket, fuel, and the
indices of its Use and Km variables. -/
structure Duty where
  d : String
  f : String
  useIdx : Nat
  kmIdx : Nat
  deriving DecidableEq

/-- The duty list for `(t, v, s)` in loop order: `(d, f)` pairs whose Use
variable exists (the source checks `(t,v,s,d,f) in use_vars` and then
indexes both `use_vars` and `km_vars`; the Km key is present whenever the
Use key is, invariant `StOK.link`). -/
def duties (I : Inputs) (vars : VarState) (t : Int) (v s : String) : List Duty :=
  I.distances.flatMap fun d => I.fuels.filterMap fun f =>
    match alookup vars.use_vars (t, v, s, d, f) with
    | some iu => some ⟨d, f, iu, dget vars.km_vars (t, v, s, d, f)⟩
    | none => none

/-- The greedy allocation loop over the pool: while vehicles are still
needed, take `min(batch count, remaining)` from each batch in order,
emitting one Use record per batch touched and decrementing its count.
Returns the emitted records and the updated pool. -/
def allocGo (t : Int) (d f : String) (avg : ℚ) : List Batch → Int → List SubRow × List Batch
  | [], _ => ([], [])
  | item :: rest, rem =>
    if 0 < item.count ∧ 0 < rem then
      let take := min item.count rem
      let r := allocGo t d f avg rest (rem - take)
      (⟨t, item.id, take, "Use", f, d, some avg⟩ :: r.1,
       { item with count := item.count - take } :: r.2)
    else
      let r := allocGo t d f avg rest rem
      (r.1, item :: r.2)

/-- Processing one duty: nothing happens unless the rounded Use count is
positive; otherwise the even per-vehicle share `total_km / needed` is
computed and the pool is consumed greedily. -/
def processDuty (t : Int) (d f : String) (needed : Int) (total_km : ℚ) (pool : List Batch) :
    List SubRow × List Batch :=
  if 0 < needed then
    let avg_km := total_km / (needed : ℚ)
    allocGo t d f avg_km pool needed
  else ([], pool)

/-- The duty loop for one class, threading the (mutable in the source)
pool through the duties in order and accumulating records. -/
def classUseGo (x : Nat → ℚ) (t : Int) :
    List Duty → List SubRow × List Batch → List SubRow × List Batch
  | [], acc => acc
  | dd :: rest, acc =>
      let r := processDuty t dd.d dd.f (iround (x dd.useIdx)) (x dd.kmIdx) acc.2
      classUseGo x t rest (acc.1 ++ r.1, r.2)

/-- Use records for one `(t, v, s)` class.  The source builds all pools
for a year up front; since each `(v, s)` pool is only read and mutated by
its own class, building it at the head of the class loop is the same
computation. -/
def classUseRows (I : Inputs) (vars : VarState) (x : Nat → ℚ) (t : Int) (v s : String) :
    List SubRow :=
  (classUseGo x t (duties I vars t v s) ([], buildPool vars x t v s)).1

/-- All Use records, in the source's year / vehicle type / size /
distance / fuel loop order. -/
def useRows (I : Inputs) (vars : VarState) (x : Nat → ℚ) : List SubRow :=
  I.years.flatMap fun t => I.vehicle_types.flatMap fun v => I.sizes.flatMap fun s =>
    classUseRows I vars x t v s

/-- The decoded plan: Buy and Sell rows first (`submission_rows`), then
the allocated Use rows, exactly the order `final_submission` is built. -/
def finalSubmission (I : Inputs) (vars : VarState) (x : Nat → ℚ) : List SubRow :=
  buySellRows I vars x ++ useRows I vars x

/-- The terminal solver outcome consumed by the post-solve phase:
`success` plus the assignment vector. -/
structure MilpResult where
  success : Bool
  x : Nat → ℚ

/-- The post-solve pipeline: on solver failure (`not res.success`) the
run stops and produces no plan records (`solve_optimization` prints and
returns early); otherwise the decoded plan is produced.  No retry and no
constraint relaxation exists — this is the only control path. -/
def runPipeline (I : Inputs) (res : MilpResult) : Option (List SubRow) :=
  if res.success then some (finalSubmission I (createVars I) res.x) else none

/-- A small concrete instance (two years, one vehicle class, one demand
cell, one fuel) used to evaluate the embedding on closed inputs. -/
def Iex : Inputs where
  years := [2023, 2024]
  sizes := ["S1"]
  distances := ["D1"]
  vehicle_types := ["BEV"]
  fuels := ["Electricity"]
  demand := fun _ _ _ => 80
  emission_targets := fun _ => 1000000
  vehicle_cost := fun _ _ _ => some 1000
  vehicle_range := fun _ _ _ => some 100
  fuel_cost := fun _ _ => some 2
  fuel_emissions := fun _ _ => some 1
  consumption := fun v s t f =>
    if v = "BEV" ∧ s = "S1" ∧ f = "Electricity" ∧ (t = 2023 ∨ t = 2024) then some 1 else none
  resale_profile := fun _ => some 50
  insurance_profile := fun _ => some 5
  maintenance_profile := fun _ => some 10

/-- The variable registries built for `Iex`. -/
def Vex : VarState := createVars Iex

/-- Like `Iex`, but the consumption entry exists only for the 2023
vehicle id: the 2023 vintage is fuel-compatible, the 2024 id is not. -/
def I4 : Inputs :=
  { Iex with
    consumption := fun v s t f =>
      if v = "BEV" ∧ s = "S1" ∧ f = "Electricity" ∧ t = 2023 then some 1 else none }

/-- A rounded-to-inconsistency relaxed assignment for `Iex`: every count
variable holds `2/5` (rounding to 0), the 2024 Use variable holds `4/5`
(rounding to 1) and its Km variable 64.  It satisfies the aggregate
constraints of the relaxed model, yet after rounding the year-2024 pool
is empty while one vehicle is still needed. -/
def x5 : Nat → ℚ := fun i =>
  if i = dget Vex.buy_vars (2023, "BEV", "S1") then Rat.divInt 2 5
  else if i = dget Vex.fleet_vars (2023, "BEV", "S1", 0) then Rat.divInt 2 5
  else if i = dget Vex.buy_vars (2024, "BEV", "S1") then Rat.divInt 2 5
  else if i = dget Vex.fleet_vars (2024, "BEV", "S1", 0) then Rat.divInt 2 5
  else if i = dget Vex.fleet_vars (2024, "BEV", "S1", 1) then Rat.divInt 2 5
  else if i = dget Vex.use_vars (2024, "BEV", "S1", "D1", "Electricity") then Rat.divInt 4 5
  else if i = dget Vex.km_vars (2024, "BEV", "S1", "D1", "Electricity") then 64
  else 0

/-- An assignment for `Iex` where the 2023 Use variable holds `7/5`
(rounding down to 1) while its Km variable holds `140 = (7/5) * 100`,
i.e. the capacity link `Km <= Use * range` is satisfied with range 100. -/
def x7 : Nat → ℚ := fun i =>
  if i = dget Vex.buy_vars (2023, "BEV", "S1") then 2
  else if i = dget Vex.fleet_vars (2023, "BEV", "S1", 0) then 2
  else if i = dget Vex.use_vars (2023, "BEV", "S1", "D1", "Electricity") then Rat.divInt 7 5
  else if i = dget Vex.km_vars (2023, "BEV", "S1", "D1", "Electricity") then 140
  else 0

/-- Like `Iex` but with two distance buckets, so a class has two duties
in a year. -/
def I10 : Inputs := { Iex with distances := ["D1", "D2"] }

def V10 : VarState := createVars I10

/-- An assignment for `I10` where the D1 duty's Use variable holds 0
(rounding to 0) while the D2 duty uses the one bought vehicle. -/
def x10 : Nat → ℚ := fun i =>
  if i = dget V10.buy_vars (2023, "BEV", "S1") then 1
  else if i = dget V10.fleet_vars (2023, "BEV", "S1", 0) then 1
  else if i = dget V10.use_vars (2023, "BEV", "S1", "D2", "Electricity") then 1
  else if i = dget V10.km_vars (2023, "BEV", "S1", "D2", "Electricity") then 50
  else 0

/-! ## Association-list and fold lemmas -/

theorem alookup_cons_isSome {α β : Type} [DecidableEq α] (k : α) (v : β) (l : List (α × β))
    (key : α) (h : (alookup l key).isSome) : (alookup ((k, v) :: l) key).isSome := by
  by_cases hk : key = k
  · simp [alookup, hk]
  · simpa [alookup, hk] using h

theorem alookup_append_isSome {α β : Type} [DecidableEq α] (l₁ l₂ : List (α × β)) (key : α)
    (h : (alookup l₂ key).isSome) : (alookup (l₁ ++ l₂) key).isSome := by
  induction l₁ with
  | nil => simpa using h
  | cons p rest ih => exact alookup_cons_isSome p.1 p.2 (rest ++ l₂) key ih

theorem alookup_mem {α β : Type} [DecidableEq α] {l : List (α × β)} {key : α} {v : β}
    (h : alookup l key = some v) : (key, v) ∈ l := by
  induction l with
  | nil => simp [alookup] at h
  | cons p rest ih =>
    by_cases hk : key = p.1
    · rw [show p = (p.1, p.2) from rfl, alookup, if_pos hk] at h
      obtain rfl : p.2 = v := by simpa using h
      subst hk
      exact List.mem_cons_self _ _
    · rw [show p = (p.1, p.2) from rfl, alookup, if_neg hk] at h
      exact List.mem_cons_of_mem _ (ih h)

theorem mem_intRange {lo a : Int} {n : Nat} : a ∈ intRange lo n ↔ lo ≤ a ∧ a < lo + n := by
  unfold intRange
  constructor
  · intro h
    obtain ⟨k, hk, he⟩ := List.mem_map.mp h
    rw [List.mem_range] at hk
    rw [Int.ofNat_eq_coe] at he
    omega
  · intro h
    refine List.mem_map.mpr ⟨(a - lo).toNat, ?_, ?_⟩
    · rw [List.mem_range]
      omega
    · rw [Int.ofNat_eq_coe]
      omega

theorem foldl_invariant_mem {σ α : Type} {P : σ → Prop} {f : σ → α → σ} :
    ∀ (l : List α) (s : σ), (∀ s2 a, a ∈ l → P s2 → P (f s2 a)) → P s → P (l.foldl f s) := by
  intro l
  induction l with
  | nil => intro s _ hs; exact hs
  | cons a rest ih =>
    intro s h hs
    exact ih (f s a) (fun s2 b hb => h s2 b (List.mem_cons_of_mem _ hb))
      (h s a (List.mem_cons_self _ _) hs)

theorem foldl_establish {σ α : Type} {P : σ → Prop} {f : σ → α → σ} {a0 : α} :
    ∀ (l : List α) (s : σ), a0 ∈ l → (∀ s2, P (f s2 a0)) →
      (∀ s2 a, a ∈ l → P s2 → P (f s2 a)) → P (l.foldl f s) := by
  intro l
  induction l with
  | nil => intro s h; simp at h
  | cons a rest ih =>
    intro s hmem hhit hpres
    rcases List.mem_cons.mp hmem with h | h
    · subst h
      exact foldl_invariant_mem rest (f s a0)
        (fun s2 b hb => hpres s2 b (List.mem_cons_of_mem _ hb)) (hhit s)
    · exact ih (f s a) h hhit (fun s2 b hb => hpres s2 b (List.mem_cons_of_mem _ hb))

/-! ## Extension order on builder states -/

/-- `l2` extends the association list `l` by prepending newer bindings. -/
def ListExt {α : Type} (l l2 : List α) : Prop := ∃ l3, l2 = l3 ++ l

/-- `l2` extends the declaration list `l` by appending fresh variables. -/
def DeclExt (l l2 : List VarDecl) : Prop := ∃ l3, l2 = l ++ l3

/-- The builder only ever appends declarations and prepends registry
bindings; this order captures that. -/
def VarExt (st st2 : VarState) : Prop :=
  DeclExt st.decls st2.decls ∧ ListExt st.buy_vars st2.buy_vars ∧
    ListExt st.fleet_vars st2.fleet_vars ∧ ListExt st.sell_vars st2.sell_vars ∧
    ListExt st.use_vars st2.use_vars ∧ ListExt st.km_vars st2.km_vars

theorem varExt_refl (st : VarState) : VarExt st st :=
  ⟨⟨[], by simp⟩, ⟨[], rfl⟩, ⟨[], rfl⟩, ⟨[], rfl⟩, ⟨[], rfl⟩, ⟨[], rfl⟩⟩

theorem listExt_trans {α : Type} {a b c : List α} (h1 : ListExt a b) (h2 : ListExt b c) :
    ListExt a c := by
  obtain ⟨l1, rfl⟩ := h1
  obtain ⟨l2, rfl⟩ := h2
  exact ⟨l2 ++ l1, by simp⟩

theorem declExt_trans {a b c : List VarDecl} (h1 : DeclExt a b) (h2 : DeclExt b c) :
    DeclExt a c := by
  obtain ⟨l1, rfl⟩ := h1
  obtain ⟨l2, rfl⟩ := h2
  exact ⟨l1 ++ l2, by simp⟩

theorem varExt_trans {a b c : VarState} (h1 : VarExt a b) (h2 : VarExt b c) : VarExt a c :=
  ⟨declExt_trans h1.1 h2.1, listExt_trans h1.2.1 h2.2.1,
    listExt_trans h1.2.2.1 h2.2.2.1, listExt_trans h1.2.2.2.1 h2.2.2.2.1,
    listExt_trans h1.2.2.2.2.1 h2.2.2.2.2.1, listExt_trans h1.2.2.2.2.2 h2.2.2.2.2.2⟩

theorem addBuy_ext (st : VarState) (k : Int × String × String) (n : String) (o : ℚ) :
    VarExt st (addBuy st k n o) :=
  ⟨⟨_, rfl⟩, ⟨[(k, st.decls.length)], rfl⟩, ⟨[], rfl⟩, ⟨[], rfl⟩, ⟨[], rfl⟩, ⟨[], rfl⟩⟩

theorem addFleet_ext (st : VarState) (k : Int × String × String × Int) (n : String) (o : ℚ) :
    VarExt st (addFleet st k n o) :=
  ⟨⟨_, rfl⟩, ⟨[], rfl⟩, ⟨[(k, st.decls.length)], rfl⟩, ⟨[], rfl⟩, ⟨[], rfl⟩, ⟨[], rfl⟩⟩

theorem addSell_ext (st : VarState) (k : Int × String × String × Int) (n : String) (o : ℚ) :
    VarExt st (addSell st k n o) :=
  ⟨⟨_, rfl⟩, ⟨[], rfl⟩, ⟨[], rfl⟩, ⟨[(k, st.decls.length)], rfl⟩, ⟨[], rfl⟩, ⟨[], rfl⟩⟩

theorem addUse_ext (st : VarState) (k : Int × String × String × String × String) (n : String)
    (o : ℚ) : VarExt st (addUse st k n o) :=
  ⟨⟨_, rfl⟩, ⟨[], rfl⟩, ⟨[], rfl⟩, ⟨[], rfl⟩, ⟨[(k, st.decls.length)], rfl⟩, ⟨[], rfl⟩⟩

theorem addKm_ext (st : VarState) (k : Int × String × String × String × String) (n : String)
    (o : ℚ) : VarExt st (addKm st k n o) :=
  ⟨⟨_, rfl⟩, ⟨[], rfl⟩, ⟨[], rfl⟩, ⟨[], rfl⟩, ⟨[], rfl⟩, ⟨[(k, st.decls.length)], rfl⟩⟩

theorem foldl_ext {α : Type} {f : VarState → α → VarState}
    (h : ∀ st2 a, VarExt st2 (f st2 a)) :
    ∀ (l : List α) (st : VarState), VarExt st (l.foldl f st) := by
  intro l
  induction l with
  | nil => intro st; exact varExt_refl st
  | cons a rest ih => intro st; exact varExt_trans (h st a) (ih (f st a))

theorem perClassFleet_ext (I : Inputs) (st : VarState) (t : Int) (v s : String) :
    VarExt st (perClassFleet I st t v s) := by
  unfold perClassFleet
  apply foldl_ext
  intro st2 age
  by_cases h : 2023 ≤ t - age
  · rw [if_pos h]
    apply addFleet_ext
  · rw [if_neg h]
    exact varExt_refl st2

theorem perClassSell_ext (I : Inputs) (st : VarState) (t : Int) (v s : String) :
    VarExt st (perClassSell I st t v s) := by
  unfold perClassSell
  apply foldl_ext
  intro st2 age
  by_cases h : 2023 ≤ t - age
  · rw [if_pos h]
    apply addSell_ext
  · rw [if_neg h]
    exact varExt_refl st2

theorem perClassDuty_ext (I : Inputs) (st : VarState) (t : Int) (v s : String) :
    VarExt st (perClassDuty I st t v s) := by
  unfold perClassDuty
  apply foldl_ext
  intro stD d
  apply foldl_ext
  intro stF f
  cases hc : I.consumption v s t f with
  | none => simp only [hc]; exact varExt_refl stF
  | some cons =>
    simp only [hc]
    exact varExt_trans (addUse_ext stF _ _ _) (addKm_ext _ _ _ _)

theorem perClass_ext (I : Inputs) (st : VarState) (t : Int) (v s : String) :
    VarExt st (perClass I st t v s) :=
  varExt_trans (addBuy_ext st _ _ _)
    (varExt_trans (perClassFleet_ext I _ t v s)
      (varExt_trans (perClassSell_ext I _ t v s) (perClassDuty_ext I _ t v s)))

theorem listExt_alookup_isSome {α : Type} [DecidableEq α] {l l2 : List (α × Nat)}
    (h : ListExt l l2) {k : α} (hs : (alookup l k).isSome) : (alookup l2 k).isSome := by
  obtain ⟨l3, rfl⟩ := h
  exact alookup_append_isSome l3 l k hs

theorem declExt_get {l l2 : List VarDecl} (h : DeclExt l l2) {i : Nat} {dcl : VarDecl}
    (hg : l[i]? = some dcl) : l2[i]? = some dcl := by
  obtain ⟨l3, rfl⟩ := h
  have hlt : i < l.length := by
    by_contra hge
    rw [List.getElem?_eq_none (by omega)] at hg
    exact Option.noConfusion hg
  rw [List.getElem?_append_left hlt]
  exact hg

/-! ## Builder-state invariants -/

theorem addBuy_def (st : VarState) (k : Int × String × String) (n : String) (o : ℚ) :
    addBuy st k n o =
      ⟨st.decls ++ [⟨n, 0, 0, none, o⟩], (k, st.decls.length) :: st.buy_vars,
        st.fleet_vars, st.sell_vars, st.use_vars, st.km_vars⟩ := by
  simp [addBuy, addVariable]

theorem addFleet_def (st : VarState) (k : Int × String × String × Int) (n : String) (o : ℚ) :
    addFleet st k n o =
      ⟨st.decls ++ [⟨n, 0, 0, none, o⟩], st.buy_vars, (k, st.decls.length) :: st.fleet_vars,
        st.sell_vars, st.use_vars, st.km_vars⟩ := by
  simp [addFleet, addVariable]

theorem addSell_def (st : VarState) (k : Int × String × String × Int) (n : String) (o : ℚ) :
    addSell st k n o =
      ⟨st.decls ++ [⟨n, 0, 0, none, o⟩], st.buy_vars, st.fleet_vars,
        (k, st.decls.length) :: st.sell_vars, st.use_vars, st.km_vars⟩ := by
  simp [addSell, addVariable]

theorem addUse_def (st : VarState) (k : Int × String × String × String × String) (n : String)
    (o : ℚ) :
    addUse st k n o =
      ⟨st.decls ++ [⟨n, 0, 0, none, o⟩], st.buy_vars, st.fleet_vars, st.sell_vars,
        (k, st.decls.length) :: st.use_vars, st.km_vars⟩ := by
  simp [addUse, addVariable]

theorem addKm_def (st : VarState) (k : Int × String × String × String × String) (n : String)
    (o : ℚ) :
    addKm st k n o =
      ⟨st.decls ++ [⟨n, 0, 0, none, o⟩], st.buy_vars, st.fleet_vars, st.sell_vars,
        st.use_vars, (k, st.decls.length) :: st.km_vars⟩ := by
  simp [addKm, addVariable]

/-- The structural invariants of the variable-creation phase: every
Fleet key respects the age guard, every Sell key the age range and
guard, every Use/Km key has a consumption entry, every Use/Km index
points at its own declaration, and Use and Km keys exist in lockstep. -/
structure StOK (I : Inputs) (st : VarState) : Prop where
  fleetKeys : ∀ t v s age i, ((t, v, s, age), i) ∈ st.fleet_vars → 2023 ≤ t - age
  sellKeys : ∀ t v s age i, ((t, v, s, age), i) ∈ st.sell_vars → 1 ≤ age ∧ 2023 ≤ t - age
  useKeys : ∀ t v s d f i, ((t, v, s, d, f), i) ∈ st.use_vars → (I.consumption v s t f).isSome
  kmDecls : ∀ t v s d f i, ((t, v, s, d, f), i) ∈ st.km_vars →
    ∃ cons, I.consumption v s t f = some cons ∧
      st.decls[i]? = some ⟨kmName t v s d f, 0, 0, none, cons * (I.fuel_cost f t).getD 0⟩
  useDecls : ∀ t v s d f i, ((t, v, s, d, f), i) ∈ st.use_vars →
    st.decls[i]? = some ⟨useName t v s d f, 0, 0, none, 0⟩
  link : ∀ k, (alookup st.use_vars k).isSome ↔ (alookup st.km_vars k).isSome

theorem stOK_empty (I : Inputs) : StOK I emptyVarState := by
  constructor <;> simp [emptyVarState, alookup]

theorem stOK_addBuy (I : Inputs) (st : VarState) (k : Int × String × String) (n : String)
    (o : ℚ) (h : StOK I st) : StOK I (addBuy st k n o) := by
  rw [addBuy_def]
  refine ⟨h.fleetKeys, h.sellKeys, h.useKeys, ?_, ?_, h.link⟩
  · intro t v s d f i hm
    obtain ⟨cons, hc, hg⟩ := h.kmDecls t v s d f i hm
    exact ⟨cons, hc, declExt_get ⟨_, rfl⟩ hg⟩
  · intro t v s d f i hm
    exact declExt_get ⟨_, rfl⟩ (h.useDecls t v s d f i hm)

theorem stOK_addFleet (I : Inputs) (st : VarState) (t : Int) (v s : String) (age : Int)
    (n : String) (o : ℚ) (hguard : 2023 ≤ t - age) (h : StOK I st) :
    StOK I (addFleet st (t, v, s, age) n o) := by
  rw [addFleet_def]
  refine ⟨?_, h.sellKeys, h.useKeys, ?_, ?_, h.link⟩
  · intro t2 v2 s2 age2 i hm
    rcases List.mem_cons.mp hm with he | hm2
    · obtain ⟨hk, -⟩ := Prod.mk.injEq .. ▸ he
      obtain ⟨rfl, rfl, rfl, rfl⟩ := by simpa using hk
      exact hguard
    · exact h.fleetKeys t2 v2 s2 age2 i hm2
  · intro t2 v2 s2 d2 f2 i hm
    obtain ⟨cons, hc, hg⟩ := h.kmDecls t2 v2 s2 d2 f2 i hm
    exact ⟨cons, hc, declExt_get ⟨_, rfl⟩ hg⟩
  · intro t2 v2 s2 d2 f2 i hm
    exact declExt_get ⟨_, rfl⟩ (h.useDecls t2 v2 s2 d2 f2 i hm)

theorem stOK_addSell (I : Inputs) (st : VarState) (t : Int) (v s : String) (age : Int)
    (n : String) (o : ℚ) (hage : 1 ≤ age) (hguard : 2023 ≤ t - age) (h : StOK I st) :
    StOK I (addSell st (t, v, s, age) n o) := by
  rw [addSell_def]
  refine ⟨h.fleetKeys, ?_, h.useKeys, ?_, ?_, h.link⟩
  · intro t2 v2 s2 age2 i hm
    rcases List.mem_cons.mp hm with he | hm2
    · obtain ⟨hk, -⟩ := Prod.mk.injEq .. ▸ he
      obtain ⟨rfl, rfl, rfl, rfl⟩ := by simpa using hk
      exact ⟨hage, hguard⟩
    · exact h.sellKeys t2 v2 s2 age2 i hm2
  · intro t2 v2 s2 d2 f2 i hm
    obtain ⟨cons, hc, hg⟩ := h.kmDecls t2 v2 s2 d2 f2 i hm
    exact ⟨cons, hc, declExt_get ⟨_, rfl⟩ hg⟩
  · intro t2 v2 s2 d2 f2 i hm
    exact declExt_get ⟨_, rfl⟩ (h.useDecls t2 v2 s2 d2 f2 i hm)

theorem stOK_addDuty (I : Inputs) (st : VarState) (t : Int) (v s d f : String) (cons : ℚ)
    (hc : I.consumption v s t f = some cons) (h : StOK I st) :
    StOK I (addKm (addUse st (t, v, s, d, f) (useName t v s d f) 0)
      (t, v, s, d, f) (kmName t v s d f) (cons * (I.fuel_cost f t).getD 0)) := by
  rw [addUse_def, addKm_def]
  refine ⟨h.fleetKeys, h.sellKeys, ?_, ?_, ?_, ?_⟩
  · intro t2 v2 s2 d2 f2 i hm
    rcases List.mem_cons.mp hm with he | hm2
    · obtain ⟨hk, -⟩ := Prod.mk.injEq .. ▸ he
      obtain ⟨rfl, rfl, rfl, rfl, rfl⟩ := by simpa using hk
      simp [hc]
    · exact h.useKeys t2 v2 s2 d2 f2 i hm2
  · intro t2 v2 s2 d2 f2 i hm
    rcases List.mem_cons.mp hm with he | hm2
    · obtain ⟨hk, hi⟩ := Prod.mk.injEq .. ▸ he
      obtain ⟨rfl, rfl, rfl, rfl, rfl⟩ := by simpa using hk
      subst hi
      refine ⟨cons, hc, ?_⟩
      exact List.getElem?_concat_length _ _
    · obtain ⟨cons2, hc2, hg⟩ := h.kmDecls t2 v2 s2 d2 f2 i hm2
      exact ⟨cons2, hc2, declExt_get (declExt_trans ⟨_, rfl⟩ ⟨_, rfl⟩) hg⟩
  · intro t2 v2 s2 d2 f2 i hm
    rcases List.mem_cons.mp hm with he | hm2
    · obtain ⟨hk, hi⟩ := Prod.mk.injEq .. ▸ he
      obtain ⟨rfl, rfl, rfl, rfl, rfl⟩ := by simpa using hk
      subst hi
      rw [List.getElem?_append_left (by simp)]
      exact List.getElem?_concat_length _ _
    · exact declExt_get (declExt_trans ⟨_, rfl⟩ ⟨_, rfl⟩) (h.useDecls t2 v2 s2 d2 f2 i hm2)
  · intro k
    by_cases hk : k = (t, v, s, d, f)
    · simp [alookup, hk]
    · simpa [alookup, hk] using h.link k

theorem stOK_perClassFleet (I : Inputs) (st : VarState) (t : Int) (v s : String)
    (h : StOK I st) : StOK I (perClassFleet I st t v s) := by
  unfold perClassFleet
  refine foldl_invariant_mem _ _ ?_ h
  intro st2 age _ h2
  by_cases hg : 2023 ≤ t - age
  · rw [if_pos hg]
    exact stOK_addFleet I st2 t v s age _ _ hg h2
  · rw [if_neg hg]
    exact h2

theorem stOK_perClassSell (I : Inputs) (st : VarState) (t : Int) (v s : String)
    (h : StOK I st) : StOK I (perClassSell I st t v s) := by
  unfold perClassSell
  refine foldl_invariant_mem _ _ ?_ h
  intro st2 age hmem h2
  by_cases hg : 2023 ≤ t - age
  · rw [if_pos hg]
    have hage : 1 ≤ age := (mem_intRange.mp hmem).1
    exact stOK_addSell I st2 t v s age _ _ hage hg h2
  · rw [if_neg hg]
    exact h2

theorem stOK_perClassDuty (I : Inputs) (st : VarState) (t : Int) (v s : String)
    (h : StOK I st) : StOK I (perClassDuty I st t v s) := by
  unfold perClassDuty
  refine foldl_invariant_mem _ _ ?_ h
  intro stD d _ hD
  refine foldl_invariant_mem _ _ ?_ hD
  intro stF f _ hF
  cases hc : I.consumption v s t f with
  | none => simpa only [hc] using hF
  | some cons =>
    simp only [hc]
    exact stOK_addDuty I stF t v s d f cons hc hF

theorem stOK_perClass (I : Inputs) (st : VarState) (t : Int) (v s : String)
    (h : StOK I st) : StOK I (perClass I st t v s) :=
  stOK_perClassDuty I _ t v s
    (stOK_perClassSell I _ t v s
      (stOK_perClassFleet I _ t v s (stOK_addBuy I st _ _ _ h)))

theorem stOK_createVars (I : Inputs) : StOK I (createVars I) := by
  unfold createVars
  refine foldl_invariant_mem _ _ ?_ (stOK_empty I)
  intro st2 p _ h2
  exact stOK_perClass I st2 p.1 p.2.1 p.2.2 h2

/-! ## Presence of in-range keys -/

theorem mem_classTriples {I : Inputs} {t : Int} {v s : String} (ht : t ∈ I.years)
    (hv : v ∈ I.vehicle_types) (hs : s ∈ I.sizes) : (t, v, s) ∈ classTriples I := by
  unfold classTriples
  exact List.mem_flatMap.mpr ⟨t, ht, List.mem_flatMap.mpr ⟨v, hv, List.mem_map.mpr ⟨s, hs, rfl⟩⟩⟩

theorem varExt_buy_isSome {st st2 : VarState} (h : VarExt st st2)
    {k : Int × String × String} (hs : (alookup st.buy_vars k).isSome) :
    (alookup st2.buy_vars k).isSome := listExt_alookup_isSome h.2.1 hs

theorem varExt_fleet_isSome {st st2 : VarState} (h : VarExt st st2)
    {k : Int × String × String × Int} (hs : (alookup st.fleet_vars k).isSome) :
    (alookup st2.fleet_vars k).isSome := listExt_alookup_isSome h.2.2.1 hs

theorem varExt_sell_isSome {st st2 : VarState} (h : VarExt st st2)
    {k : Int × String × String × Int} (hs : (alookup st.sell_vars k).isSome) :
    (alookup st2.sell_vars k).isSome := listExt_alookup_isSome h.2.2.2.1 hs

theorem varExt_use_isSome {st st2 : VarState} (h : VarExt st st2)
    {k : Int × String × String × String × String} (hs : (alookup st.use_vars k).isSome) :
    (alookup st2.use_vars k).isSome := listExt_alookup_isSome h.2.2.2.2.1 hs

theorem varExt_km_isSome {st st2 : VarState} (h : VarExt st st2)
    {k : Int × String × String × String × String} (hs : (alookup st.km_vars k).isSome) :
    (alookup st2.km_vars k).isSome := listExt_alookup_isSome h.2.2.2.2.2 hs

theorem perClass_buy_isSome (I : Inputs) (st : VarState) (t : Int) (v s : String) :
    (alookup (perClass I st t v s).buy_vars (t, v, s)).isSome := by
  unfold perClass
  have h1 : (alookup (addBuy st (t, v, s) (buyName t v s)
      ((I.vehicle_cost v s t).getD 0)).buy_vars (t, v, s)).isSome := by
    rw [addBuy_def]
    simp [alookup]
  exact varExt_buy_isSome
    (varExt_trans (perClassFleet_ext I _ t v s)
      (varExt_trans (perClassSell_ext I _ t v s) (perClassDuty_ext I _ t v s))) h1

theorem perClassFleet_isSome (I : Inputs) (st : VarState) (t : Int) (v s : String) (age : Int)
    (h0 : 0 ≤ age) (h10 : age ≤ 10) (hg : 2023 ≤ t - age) :
    (alookup (perClassFleet I st t v s).fleet_vars (t, v, s, age)).isSome := by
  unfold perClassFleet
  refine @foldl_establish VarState Int
    (fun st2 => (alookup st2.fleet_vars (t, v, s, age)).isSome = true) _ age
    (intRange 0 11) st ((@mem_intRange 0 age 11).mpr ⟨h0, by omega⟩) ?_ ?_
  · intro st2
    rw [if_pos hg, addFleet_def]
    simp [alookup]
  · intro st2 b _ hP
    by_cases hb : 2023 ≤ t - b
    · rw [if_pos hb, addFleet_def]
      exact alookup_cons_isSome _ _ _ _ hP
    · rw [if_neg hb]
      exact hP

theorem perClass_fleet_isSome (I : Inputs) (st : VarState) (t : Int) (v s : String) (age : Int)
    (h0 : 0 ≤ age) (h10 : age ≤ 10) (hg : 2023 ≤ t - age) :
    (alookup (perClass I st t v s).fleet_vars (t, v, s, age)).isSome := by
  unfold perClass
  exact varExt_fleet_isSome
    (varExt_trans (perClassSell_ext I _ t v s) (perClassDuty_ext I _ t v s))
    (perClassFleet_isSome I _ t v s age h0 h10 hg)

theorem perClassSell_isSome (I : Inputs) (st : VarState) (t : Int) (v s : String) (age : Int)
    (h1 : 1 ≤ age) (h10 : age ≤ 10) (hg : 2023 ≤ t - age) :
    (alookup (perClassSell I st t v s).sell_vars (t, v, s, age)).isSome := by
  unfold perClassSell
  refine @foldl_establish VarState Int
    (fun st2 => (alookup st2.sell_vars (t, v, s, age)).isSome = true) _ age
    (intRange 1 10) st ((@mem_intRange 1 age 10).mpr ⟨h1, by omega⟩) ?_ ?_
  · intro st2
    rw [if_pos hg, addSell_def]
    simp [alookup]
  · intro st2 b _ hP
    by_cases hb : 2023 ≤ t - b
    · rw [if_pos hb, addSell_def]
      exact alookup_cons_isSome _ _ _ _ hP
    · rw [if_neg hb]
      exact hP

theorem perClass_sell_isSome (I : Inputs) (st : VarState) (t : Int) (v s : String) (age : Int)
    (h1 : 1 ≤ age) (h10 : age ≤ 10) (hg : 2023 ≤ t - age) :
    (alookup (perClass I st t v s).sell_vars (t, v, s, age)).isSome := by
  unfold perClass
  exact varExt_sell_isSome (perClassDuty_ext I _ t v s)
    (perClassSell_isSome I _ t v s age h1 h10 hg)

theorem perClassDuty_use_isSome (I : Inputs) (st : VarState) (t : Int) (v s d f : String)
    (hd : d ∈ I.distances) (hf : f ∈ I.fuels) (hc : (I.consumption v s t f).isSome) :
    (alookup (perClassDuty I st t v s).use_vars (t, v, s, d, f)).isSome := by
  obtain ⟨cons, hcons⟩ := Option.isSome_iff_exists.mp hc
  unfold perClassDuty
  refine @foldl_establish VarState String
    (fun st2 => (alookup st2.use_vars (t, v, s, d, f)).isSome = true) _ d
    I.distances st hd ?_ ?_
  · intro stD
    refine @foldl_establish VarState String
      (fun st2 => (alookup st2.use_vars (t, v, s, d, f)).isSome = true) _ f
      I.fuels stD hf ?_ ?_
    · intro stF
      simp only [hcons]
      rw [addUse_def, addKm_def]
      simp [alookup]
    · intro stF g _ hP
      cases hcg : I.consumption v s t g with
      | none => simpa only [hcg] using hP
      | some c2 =>
        simp only [hcg]
        rw [addUse_def, addKm_def]
        exact alookup_cons_isSome _ _ _ _ hP
  · intro stD d2 _ hP
    refine @foldl_invariant_mem VarState String
      (fun st2 => (alookup st2.use_vars (t, v, s, d, f)).isSome = true) _
      I.fuels stD ?_ hP
    intro stF g _ hP2
    cases hcg : I.consumption v s t g with
    | none => simpa only [hcg] using hP2
    | some c2 =>
      simp only [hcg]
      rw [addUse_def, addKm_def]
      exact alookup_cons_isSome _ _ _ _ hP2

theorem perClass_use_isSome (I : Inputs) (st : VarState) (t : Int) (v s d f : String)
    (hd : d ∈ I.distances) (hf : f ∈ I.fuels) (hc : (I.consumption v s t f).isSome) :
    (alookup (perClass I st t v s).use_vars (t, v, s, d, f)).isSome := by
  unfold perClass
  exact perClassDuty_use_isSome I _ t v s d f hd hf hc

theorem presence_buy (I : Inputs) {t : Int} {v s : String} (ht : t ∈ I.years)
    (hv : v ∈ I.vehicle_types) (hs : s ∈ I.sizes) :
    (alookup (createVars I).buy_vars (t, v, s)).isSome := by
  unfold createVars
  refine @foldl_establish VarState (Int × String × String)
    (fun st2 => (alookup st2.buy_vars (t, v, s)).isSome = true) _ (t, v, s)
    (classTriples I) emptyVarState (mem_classTriples ht hv hs) ?_ ?_
  · intro st2
    exact perClass_buy_isSome I st2 t v s
  · intro st2 p _ hP
    exact varExt_buy_isSome (perClass_ext I st2 p.1 p.2.1 p.2.2) hP

theorem presence_fleet (I : Inputs) {t : Int} {v s : String} {age : Int} (ht : t ∈ I.years)
    (hv : v ∈ I.vehicle_types) (hs : s ∈ I.sizes) (h0 : 0 ≤ age) (h10 : age ≤ 10)
    (hg : 2023 ≤ t - age) : (alookup (createVars I).fleet_vars (t, v, s, age)).isSome := by
  unfold createVars
  refine @foldl_establish VarState (Int × String × String)
    (fun st2 => (alookup st2.fleet_vars (t, v, s, age)).isSome = true) _ (t, v, s)
    (classTriples I) emptyVarState (mem_classTriples ht hv hs) ?_ ?_
  · intro st2
    exact perClass_fleet_isSome I st2 t v s age h0 h10 hg
  · intro st2 p _ hP
    exact varExt_fleet_isSome (perClass_ext I st2 p.1 p.2.1 p.2.2) hP

theorem presence_sell (I : Inputs) {t : Int} {v s : String} {age : Int} (ht : t ∈ I.years)
    (hv : v ∈ I.vehicle_types) (hs : s ∈ I.sizes) (h1 : 1 ≤ age) (h10 : age ≤ 10)
    (hg : 2023 ≤ t - age) : (alookup (createVars I).sell_vars (t, v, s, age)).isSome := by
  unfold createVars
  refine @foldl_establish VarState (Int × String × String)
    (fun st2 => (alookup st2.sell_vars (t, v, s, age)).isSome = true) _ (t, v, s)
    (classTriples I) emptyVarState (mem_classTriples ht hv hs) ?_ ?_
  · intro st2
    exact perClass_sell_isSome I st2 t v s age h1 h10 hg
  · intro st2 p _ hP
    exact varExt_sell_isSome (perClass_ext I st2 p.1 p.2.1 p.2.2) hP

theorem presence_use (I : Inputs) {t : Int} {v s d f : String} (ht : t ∈ I.years)
    (hv : v ∈ I.vehicle_types) (hs : s ∈ I.sizes) (hd : d ∈ I.distances) (hf : f ∈ I.fuels)
    (hc : (I.consumption v s t f).isSome) :
    (alookup (createVars I).use_vars (t, v, s, d, f)).isSome := by
  unfold createVars
  refine @foldl_establish VarState (Int × String × String)
    (fun st2 => (alookup st2.use_vars (t, v, s, d, f)).isSome = true) _ (t, v, s)
    (classTriples I) emptyVarState (mem_classTriples ht hv hs) ?_ ?_
  · intro st2
    exact perClass_use_isSome I st2 t v s d f hd hf hc
  · intro st2 p _ hP
    exact varExt_use_isSome (perClass_ext I st2 p.1 p.2.1 p.2.2) hP

theorem presence_km (I : Inputs) {t : Int} {v s d f : String} (ht : t ∈ I.years)
    (hv : v ∈ I.vehicle_types) (hs : s ∈ I.sizes) (hd : d ∈ I.distances) (hf : f ∈ I.fuels)
    (hc : (I.consumption v s t f).isSome) :
    (alookup (createVars I).km_vars (t, v, s, d, f)).isSome :=
  ((stOK_createVars I).link _).mp (presence_use I ht hv hs hd hf hc)

/-! ## Small helpers for claim statements -/

theorem dget_eq {α : Type} [DecidableEq α] {l : List (α × Nat)} {k : α} {i : Nat}
    (h : alookup l k = some i) : dget l k = i := by
  rw [dget, h]
  rfl

theorem duties_use (I : Inputs) (vars : VarState) (t : Int) (v s : String) :
    ∀ dd ∈ duties I vars t v s,
      alookup vars.use_vars (t, v, s, dd.d, dd.f) = some dd.useIdx ∧
        dd.kmIdx = dget vars.km_vars (t, v, s, dd.d, dd.f) := by
  intro dd hdd
  unfold duties at hdd
  obtain ⟨d, _, hdd2⟩ := List.mem_flatMap.mp hdd
  obtain ⟨f, _, he⟩ := List.mem_filterMap.mp hdd2
  cases hu : alookup vars.use_vars (t, v, s, d, f) with
  | none =>
    rw [hu] at he
    exact absurd he (by simp)
  | some iu =>
    rw [hu] at he
    obtain rfl : Duty.mk d f iu (dget vars.km_vars (t, v, s, d, f)) = dd := by simpa using he
    exact ⟨hu, rfl⟩

/-- C1: for every year, vehicle class and valid age the fleet-dynamics
family contains the aging recurrence exactly as specified: the age-0 row
ties Fleet to Buy; for ages 1–10 whose purchase year lies in the horizon
(which starts at 2023) the rows `Fleet(t,age) + Sell(t,age) -
Fleet(t-1,age-1) == 0` and `Sell(t,age) - Fleet(t-1,age-1) <= 0` are
present; and in the first horizon year no Fleet or Sell variable of
positive age exists at all — the model has no pre-existing fleet, so
those quantities are identically zero in any solution. -/
theorem C1_aging_recurrence (I : Inputs) (t : Int) (v s : String)
    (hstart : ∀ y ∈ I.years, (2023 : Int) ≤ y)
    (hcontig : ∀ y ∈ I.years, 2023 < y → y - 1 ∈ I.years)
    (ht : t ∈ I.years) (hv : v ∈ I.vehicle_types) (hs : s ∈ I.sizes) :
    (∃ i0 ib, alookup (createVars I).fleet_vars (t, v, s, 0) = some i0 ∧
        alookup (createVars I).buy_vars (t, v, s) = some ib ∧
        mkConstr [(1, i0), (-1, ib)] Sense.eq 0 ∈ fleetDynConstraints I (createVars I)) ∧
    (∀ age : Int, 1 ≤ age → age ≤ 10 → 2023 ≤ t - age →
      ∃ ia ic ip, alookup (createVars I).fleet_vars (t, v, s, age) = some ia ∧
        alookup (createVars I).sell_vars (t, v, s, age) = some ic ∧
        alookup (createVars I).fleet_vars (t - 1, v, s, age - 1) = some ip ∧
        mkConstr [(1, ia), (1, ic), (-1, ip)] Sense.eq 0 ∈ fleetDynConstraints I (createVars I) ∧
        mkConstr [(1, ic), (-1, ip)] Sense.le 0 ∈ fleetDynConstraints I (createVars I)) ∧
    (∀ (v2 s2 : String) (age : Int), 1 ≤ age →
      alookup (createVars I).fleet_vars (2023, v2, s2, age) = none ∧
      alookup (createVars I).sell_vars (2023, v2, s2, age) = none) := by
  have hinF : ∀ c, c ∈ fleetDynFor (createVars I) t v s →
      c ∈ fleetDynConstraints I (createVars I) := by
    intro c hc
    unfold fleetDynConstraints
    exact List.mem_flatMap.mpr ⟨t, ht,
      List.mem_flatMap.mpr ⟨v, hv, List.mem_flatMap.mpr ⟨s, hs, hc⟩⟩⟩
  refine ⟨?_, ?_, ?_⟩
  · have h2023 : (2023 : Int) ≤ t := hstart t ht
    obtain ⟨i0, hi0⟩ := Option.isSome_iff_exists.mp
      (@presence_fleet I t v s 0 ht hv hs (by omega) (by omega) (by omega))
    obtain ⟨ib, hib⟩ := Option.isSome_iff_exists.mp (presence_buy I ht hv hs)
    refine ⟨i0, ib, hi0, hib, hinF _ ?_⟩
    unfold fleetDynFor
    rw [dget_eq hi0, dget_eq hib]
    exact List.mem_cons_self _ _
  · intro age h1 h10 hg
    have ht23 : (2023 : Int) < t := by omega
    have htm1 : t - 1 ∈ I.years := hcontig t ht ht23
    obtain ⟨ia, hia⟩ := Option.isSome_iff_exists.mp
      (presence_fleet I ht hv hs (by omega) h10 hg)
    obtain ⟨ic, hic⟩ := Option.isSome_iff_exists.mp
      (presence_sell I ht hv hs h1 h10 hg)
    obtain ⟨ip, hip⟩ := Option.isSome_iff_exists.mp
      (@presence_fleet I (t - 1) v s (age - 1) htm1 hv hs (by omega) (by omega) (by omega))
    have hmem2 : ∀ c, c ∈ (mkConstr
          ([(1, dget (createVars I).fleet_vars (t, v, s, age)),
            (1, dget (createVars I).sell_vars (t, v, s, age))]
            ++ (if 2023 < t then
                  [((-1 : ℚ), dget (createVars I).fleet_vars (t - 1, v, s, age - 1))]
                else []))
          Sense.eq 0
        :: (if 2023 < t then
              [mkConstr [(1, dget (createVars I).sell_vars (t, v, s, age)),
                         (-1, dget (createVars I).fleet_vars (t - 1, v, s, age - 1))] Sense.le 0]
            else [])) →
        c ∈ fleetDynFor (createVars I) t v s := by
      intro c hc
      unfold fleetDynFor
      refine List.mem_cons_of_mem _ (List.mem_flatMap.mpr
        ⟨age, (@mem_intRange 1 age 10).mpr ⟨h1, by omega⟩, ?_⟩)
      rw [if_pos hg]
      exact hc
    refine ⟨ia, ic, ip, hia, hic, hip, ?_, ?_⟩
    · refine hinF _ (hmem2 _ ?_)
      simp only [if_pos ht23]
      rw [dget_eq hia, dget_eq hic, dget_eq hip]
      exact List.mem_cons_self _ _
    · refine hinF _ (hmem2 _ ?_)
      simp only [if_pos ht23]
      rw [dget_eq hic, dget_eq hip]
      exact List.mem_cons_of_mem _ (List.mem_cons_self _ _)
  · intro v2 s2 age h1
    constructor
    · cases h : alookup (createVars I).fleet_vars (2023, v2, s2, age) with
      | none => rfl
      | some i =>
        have := (stOK_createVars I).fleetKeys 2023 v2 s2 age i (alookup_mem h)
        omega
    · cases h : alookup (createVars I).sell_vars (2023, v2, s2, age) with
      | none => rfl
      | some i =>
        have := (stOK_createVars I).sellKeys 2023 v2 s2 age i (alookup_mem h)
        omega

theorem C1_aging_recurrence_witness :
    (∃ i0 ib, alookup (createVars Iex).fleet_vars (2024, "BEV", "S1", 0) = some i0 ∧
        alookup (createVars Iex).buy_vars (2024, "BEV", "S1") = some ib ∧
        mkConstr [(1, i0), (-1, ib)] Sense.eq 0 ∈ fleetDynConstraints Iex (createVars Iex)) ∧
    (∀ age : Int, 1 ≤ age → age ≤ 10 → 2023 ≤ 2024 - age →
      ∃ ia ic ip, alookup (createVars Iex).fleet_vars (2024, "BEV", "S1", age) = some ia ∧
        alookup (createVars Iex).sell_vars (2024, "BEV", "S1", age) = some ic ∧
        alookup (createVars Iex).fleet_vars (2024 - 1, "BEV", "S1", age - 1) = some ip ∧
        mkConstr [(1, ia), (1, ic), (-1, ip)] Sense.eq 0
          ∈ fleetDynConstraints Iex (createVars Iex) ∧
        mkConstr [(1, ic), (-1, ip)] Sense.le 0 ∈ fleetDynConstraints Iex (createVars Iex)) ∧
    (∀ (v2 s2 : String) (age : Int), 1 ≤ age →
      alookup (createVars Iex).fleet_vars (2023, v2, s2, age) = none ∧
      alookup (createVars Iex).sell_vars (2023, v2, s2, age) = none) :=
  C1_aging_recurrence Iex 2024 "BEV" "S1" (by decide) (by decide) (by decide) (by decide)
    (by decide)

/-- C2: for every demand cell iterated by the generator, the demand
family contains a constraint whose row bounds are both exactly the
demand value (an equality, not a one-sided `>=` bound), whose terms all
carry coefficient 1, and whose variables are exactly the Km variables of
that `(year, size, distance)` over all vehicle types and compatible
fuels. -/
theorem C2_demand_equality (I : Inputs) (t : Int) (s d : String)
    (ht : t ∈ I.years) (hs : s ∈ I.sizes) (hd : d ∈ I.distances) :
    Constr.mk (demandTerms I (createVars I) t s d) (some (I.demand t s d))
        (some (I.demand t s d)) ∈ demandConstraints I (createVars I) ∧
    (∀ p ∈ demandTerms I (createVars I) t s d, p.1 = (1 : ℚ)) ∧
    (∀ v ∈ I.vehicle_types, ∀ f ∈ I.fuels, ∀ i,
      alookup (createVars I).km_vars (t, v, s, d, f) = some i →
      ((1 : ℚ), i) ∈ demandTerms I (createVars I) t s d) ∧
    (∀ p ∈ demandTerms I (createVars I) t s d,
      ∃ v ∈ I.vehicle_types, ∃ f ∈ I.fuels,
        alookup (createVars I).km_vars (t, v, s, d, f) = some p.2) := by
  refine ⟨?_, ?_, ?_, ?_⟩
  · unfold demandConstraints
    refine List.mem_flatMap.mpr ⟨t, ht,
      List.mem_flatMap.mpr ⟨s, hs, List.mem_flatMap.mpr ⟨d, hd, ?_⟩⟩⟩
    unfold demandFor
    exact List.mem_cons_self _ _
  · intro p hp
    unfold demandTerms at hp
    obtain ⟨v, _, hp2⟩ := List.mem_flatMap.mp hp
    obtain ⟨f, _, he⟩ := List.mem_filterMap.mp hp2
    obtain ⟨i, -, hpe⟩ := Option.map_eq_some'.mp he
    rw [← hpe]
  · intro v hv f hf i h
    unfold demandTerms
    refine List.mem_flatMap.mpr ⟨v, hv, List.mem_filterMap.mpr ⟨f, hf, ?_⟩⟩
    rw [h]
    rfl
  · intro p hp
    unfold demandTerms at hp
    obtain ⟨v, hv, hp2⟩ := List.mem_flatMap.mp hp
    obtain ⟨f, hf, he⟩ := List.mem_filterMap.mp hp2
    obtain ⟨i, hi, hpe⟩ := Option.map_eq_some'.mp he
    refine ⟨v, hv, f, hf, ?_⟩
    rw [← hpe]
    exact hi

theorem C2_demand_equality_witness :
    Constr.mk (demandTerms Iex (createVars Iex) 2023 "S1" "D1")
        (some (Iex.demand 2023 "S1" "D1")) (some (Iex.demand 2023 "S1" "D1"))
        ∈ demandConstraints Iex (createVars Iex) ∧
    (∀ p ∈ demandTerms Iex (createVars Iex) 2023 "S1" "D1", p.1 = (1 : ℚ)) ∧
    (∀ v ∈ Iex.vehicle_types, ∀ f ∈ Iex.fuels, ∀ i,
      alookup (createVars Iex).km_vars (2023, v, "S1", "D1", f) = some i →
      ((1 : ℚ), i) ∈ demandTerms Iex (createVars Iex) 2023 "S1" "D1") ∧
    (∀ p ∈ demandTerms Iex (createVars Iex) 2023 "S1" "D1",
      ∃ v ∈ Iex.vehicle_types, ∃ f ∈ Iex.fuels,
        alookup (createVars Iex).km_vars (2023, v, "S1", "D1", f) = some p.2) :=
  C2_demand_equality Iex 2023 "S1" "D1" (by decide) (by decide) (by decide)

/-- C3: the emission family has exactly one row per year of the horizon
(its length equals the number of years); the row for year `t` is a pure
upper-bound row (`lb` infinite, `ub` the cap) whose terms range over the
existing Km variables of that year with coefficient `consumption rate *
emission factor` of the corresponding `(vehicle, size, fuel)` and
`(fuel, year)`. -/
theorem C3_emission_cap (I : Inputs) (t : Int) (ht : t ∈ I.years) :
    (emissionConstraints I (createVars I)).length = I.years.length ∧
    Constr.mk (emissionTerms I (createVars I) t) none (some (I.emission_targets t))
      ∈ emissionConstraints I (createVars I) ∧
    (∀ p ∈ emissionTerms I (createVars I) t,
      ∃ v ∈ I.vehicle_types, ∃ s ∈ I.sizes, ∃ d ∈ I.distances, ∃ f ∈ I.fuels, ∃ cons,
        alookup (createVars I).km_vars (t, v, s, d, f) = some p.2 ∧
        I.consumption v s t f = some cons ∧
        p.1 = cons * (I.fuel_emissions f t).getD 0) ∧
    (∀ v ∈ I.vehicle_types, ∀ s ∈ I.sizes, ∀ d ∈ I.distances, ∀ f ∈ I.fuels, ∀ i,
      alookup (createVars I).km_vars (t, v, s, d, f) = some i →
      ((I.consumption v s t f).getD 0 * (I.fuel_emissions f t).getD 0, i)
        ∈ emissionTerms I (createVars I) t) := by
  refine ⟨?_, ?_, ?_, ?_⟩
  · unfold emissionConstraints
    exact List.length_map _ _
  · unfold emissionConstraints
    exact List.mem_map.mpr ⟨t, ht, rfl⟩
  · intro p hp
    unfold emissionTerms at hp
    obtain ⟨v, hv, hp2⟩ := List.mem_flatMap.mp hp
    obtain ⟨s, hs, hp3⟩ := List.mem_flatMap.mp hp2
    obtain ⟨d, hd, hp4⟩ := List.mem_flatMap.mp hp3
    obtain ⟨f, hf, he⟩ := List.mem_filterMap.mp hp4
    obtain ⟨i, hi, hpe⟩ := Option.map_eq_some'.mp he
    obtain ⟨cons, hc, -⟩ :=
      (stOK_createVars I).kmDecls t v s d f i (alookup_mem hi)
    refine ⟨v, hv, s, hs, d, hd, f, hf, cons, ?_, hc, ?_⟩
    · rw [← hpe]
      exact hi
    · rw [← hpe, hc]
      rfl
  · intro v hv s hs d hd f hf i h
    unfold emissionTerms
    refine List.mem_flatMap.mpr ⟨v, hv, List.mem_flatMap.mpr ⟨s, hs,
      List.mem_flatMap.mpr ⟨d, hd, List.mem_filterMap.mpr ⟨f, hf, ?_⟩⟩⟩⟩
    rw [h]
    rfl

theorem C3_emission_cap_witness :
    (emissionConstraints Iex (createVars Iex)).length = Iex.years.length ∧
    Constr.mk (emissionTerms Iex (createVars Iex) 2023) none
        (some (Iex.emission_targets 2023)) ∈ emissionConstraints Iex (createVars Iex) ∧
    (∀ p ∈ emissionTerms Iex (createVars Iex) 2023,
      ∃ v ∈ Iex.vehicle_types, ∃ s ∈ Iex.sizes, ∃ d ∈ Iex.distances, ∃ f ∈ Iex.fuels, ∃ cons,
        alookup (createVars Iex).km_vars (2023, v, s, d, f) = some p.2 ∧
        Iex.consumption v s 2023 f = some cons ∧
        p.1 = cons * (Iex.fuel_emissions f 2023).getD 0) ∧
    (∀ v ∈ Iex.vehicle_types, ∀ s ∈ Iex.sizes, ∀ d ∈ Iex.distances, ∀ f ∈ Iex.fuels, ∀ i,
      alookup (createVars Iex).km_vars (2023, v, s, d, f) = some i →
      ((Iex.consumption v s 2023 f).getD 0 * (Iex.fuel_emissions f 2023).getD 0, i)
        ∈ emissionTerms Iex (createVars Iex) 2023) :=
  C3_emission_cap Iex 2023 (by decide)

/-- C4 (amended): Use and Km variables are keyed by the usage year, not
by purchase vintage — for every iterated `(t, v, s, d, f)` a Use/Km pair
exists exactly when the consumption index has an entry for the vehicle
id of the usage year `(v, s, t, f)`; the Km objective coefficient is
that entry's rate times the year-`t` fuel cost, the Use objective is 0;
and no Use or Km variable exists for any key whose `(v, s, t, f)` is
absent from the consumption index. -/
theorem C4_use_km_variables (I : Inputs) (t : Int) (v s d f : String)
    (ht : t ∈ I.years) (hv : v ∈ I.vehicle_types) (hs : s ∈ I.sizes)
    (hd : d ∈ I.distances) (hf : f ∈ I.fuels) :
    ((alookup (createVars I).use_vars (t, v, s, d, f)).isSome ↔
      (I.consumption v s t f).isSome) ∧
    ((alookup (createVars I).km_vars (t, v, s, d, f)).isSome ↔
      (I.consumption v s t f).isSome) ∧
    (∀ i, alookup (createVars I).km_vars (t, v, s, d, f) = some i →
      ∃ cons, I.consumption v s t f = some cons ∧
        (createVars I).decls[i]? =
          some ⟨kmName t v s d f, 0, 0, none, cons * (I.fuel_cost f t).getD 0⟩) ∧
    (∀ i, alookup (createVars I).use_vars (t, v, s, d, f) = some i →
      (createVars I).decls[i]? = some ⟨useName t v s d f, 0, 0, none, 0⟩) := by
  refine ⟨⟨?_, ?_⟩, ⟨?_, ?_⟩, ?_, ?_⟩
  · intro h
    obtain ⟨i, hi⟩ := Option.isSome_iff_exists.mp h
    exact (stOK_createVars I).useKeys t v s d f i (alookup_mem hi)
  · intro hc
    exact presence_use I ht hv hs hd hf hc
  · intro h
    obtain ⟨i, hi⟩ := Option.isSome_iff_exists.mp h
    obtain ⟨cons, hc, -⟩ := (stOK_createVars I).kmDecls t v s d f i (alookup_mem hi)
    rw [hc]
    rfl
  · intro hc
    exact presence_km I ht hv hs hd hf hc
  · intro i hi
    exact (stOK_createVars I).kmDecls t v s d f i (alookup_mem hi)
  · intro i hi
    exact (stOK_createVars I).useDecls t v s d f i (alookup_mem hi)

theorem C4_use_km_variables_witness :
    ((alookup (createVars Iex).use_vars (2023, "BEV", "S1", "D1", "Electricity")).isSome ↔
      (Iex.consumption "BEV" "S1" 2023 "Electricity").isSome) ∧
    ((alookup (createVars Iex).km_vars (2023, "BEV", "S1", "D1", "Electricity")).isSome ↔
      (Iex.consumption "BEV" "S1" 2023 "Electricity").isSome) ∧
    (∀ i, alookup (createVars Iex).km_vars (2023, "BEV", "S1", "D1", "Electricity") = some i →
      ∃ cons, Iex.consumption "BEV" "S1" 2023 "Electricity" = some cons ∧
        (createVars Iex).decls[i]? =
          some ⟨kmName 2023 "BEV" "S1" "D1" "Electricity", 0, 0, none,
            cons * (Iex.fuel_cost "Electricity" 2023).getD 0⟩) ∧
    (∀ i, alookup (createVars Iex).use_vars (2023, "BEV", "S1", "D1", "Electricity") = some i →
      (createVars Iex).decls[i]? =
        some ⟨useName 2023 "BEV" "S1" "D1" "Electricity", 0, 0, none, 0⟩) :=
  C4_use_km_variables Iex 2023 "BEV" "S1" "D1" "Electricity" (by decide) (by decide)
    (by decide) (by decide) (by decide)

/-- C4 (counterexample): in `I4` the 2023 vintage of the class is
compatible with the fuel (its consumption entry exists) and is still
inside the max-age window in horizon year 2024 — its Fleet variable at
age 1 exists — yet the Model Builder creates no Use and no Km variable
for year 2024 with that fuel, because it checks compatibility at the
usage year id `(v, s, 2024, f)`, which is absent.  The claim, quantified
over purchase vintages, is therefore false on the code. -/
theorem C4_counterexample :
    I4.consumption "BEV" "S1" 2023 "Electricity" = some 1 ∧
    (2023 : Int) ∈ I4.years ∧ (2024 : Int) ∈ I4.years ∧
    ((2024 : Int) - 2023 ≤ 10) ∧
    (alookup (createVars I4).fleet_vars (2024, "BEV", "S1", 1)).isSome ∧
    alookup (createVars I4).use_vars (2024, "BEV", "S1", "D1", "Electricity") = none ∧
    alookup (createVars I4).km_vars (2024, "BEV", "S1", "D1", "Electricity") = none := by
  decide

/-- C8: when the solver reports failure the pipeline produces no plan
records at all — the post-solve phase returns the empty outcome instead
of any decoded plan, and the only alternative control path is the single
successful decode (no retry, no relaxation exists in the code). -/
theorem C8_infeasible_stops (I : Inputs) (res : MilpResult) (h : res.success = false) :
    runPipeline I res = none := by
  simp [runPipeline, h]

theorem C8_infeasible_stops_witness :
    runPipeline Iex ⟨false, fun _ => 0⟩ = none :=
  C8_infeasible_stops Iex ⟨false, fun _ => 0⟩ rfl

/-! ## Decoder allocation lemmas -/

/-- C9: the greedy allocation takes `min(batch count, remaining)` at
each step, so — starting from a pool of non-negative batch counts —
every emitted Use record has a strictly positive vehicle count that does
not exceed the prior remaining count of the batch it names, every batch
count stays non-negative, the total allocated never exceeds the rounded
Use count `rem`, and vehicles are conserved (initial pool total = final
pool total + allocated total). -/
theorem C9_pool_allocation (t : Int) (d f : String) (avg : ℚ) :
    ∀ (pool : List Batch) (rem : Int), (∀ b ∈ pool, 0 ≤ b.count) →
      (∀ rec ∈ (allocGo t d f avg pool rem).1, 0 < rec.num_vehicles) ∧
      (∀ rec ∈ (allocGo t d f avg pool rem).1,
        ∃ b ∈ pool, rec.id = b.id ∧ rec.num_vehicles ≤ b.count) ∧
      (∀ b ∈ (allocGo t d f avg pool rem).2, 0 ≤ b.count) ∧
      ((allocGo t d f avg pool rem).1.map SubRow.num_vehicles).sum ≤ max rem 0 ∧
      (pool.map Batch.count).sum =
        ((allocGo t d f avg pool rem).2.map Batch.count).sum +
          ((allocGo t d f avg pool rem).1.map SubRow.num_vehicles).sum := by
  intro pool
  induction pool with
  | nil =>
    intro rem _
    simp only [allocGo, List.map_nil, List.sum_nil]
    exact ⟨by simp, by simp, by simp, by omega, by simp⟩
  | cons item rest ih =>
    intro rem hpool
    have hrest : ∀ b ∈ rest, 0 ≤ b.count := fun b hb => hpool b (List.mem_cons_of_mem _ hb)
    have hitem : 0 ≤ item.count := hpool item (List.mem_cons_self _ _)
    by_cases hc : 0 < item.count ∧ 0 < rem
    · obtain ⟨ih1, ih2, ih3, ih4, ih5⟩ := ih (rem - min item.count rem) hrest
      simp only [allocGo, if_pos hc]
      refine ⟨?_, ?_, ?_, ?_, ?_⟩
      · intro rec hrec
        rcases List.mem_cons.mp hrec with rfl | h2
        · show 0 < min item.count rem
          omega
        · exact ih1 rec h2
      · intro rec hrec
        rcases List.mem_cons.mp hrec with rfl | h2
        · exact ⟨item, List.mem_cons_self _ _, rfl, by show min item.count rem ≤ _; omega⟩
        · obtain ⟨b, hb, h3, h4⟩ := ih2 rec h2
          exact ⟨b, List.mem_cons_of_mem _ hb, h3, h4⟩
      · intro b hb
        rcases List.mem_cons.mp hb with rfl | h2
        · show (0:Int) ≤ item.count - min item.count rem
          omega
        · exact ih3 b h2
      · simp only [List.map_cons, List.sum_cons]
        omega
      · simp only [List.map_cons, List.sum_cons]
        omega
    · obtain ⟨ih1, ih2, ih3, ih4, ih5⟩ := ih rem hrest
      simp only [allocGo, if_neg hc]
      refine ⟨ih1, ?_, ?_, ih4, ?_⟩
      · intro rec hrec
        obtain ⟨b, hb, h3, h4⟩ := ih2 rec hrec
        exact ⟨b, List.mem_cons_of_mem _ hb, h3, h4⟩
      · intro b hb
        rcases List.mem_cons.mp hb with rfl | h2
        · exact hitem
        · exact ih3 b h2
      · simp only [List.map_cons, List.sum_cons]
        omega

theorem C9_pool_allocation_witness :
    (∀ rec ∈ (allocGo 2023 "D1" "Electricity" 80 [⟨"BEV_S1_2023", 2⟩] 1).1,
      0 < rec.num_vehicles) ∧
    (∀ rec ∈ (allocGo 2023 "D1" "Electricity" 80 [⟨"BEV_S1_2023", 2⟩] 1).1,
      ∃ b ∈ [(⟨"BEV_S1_2023", 2⟩ : Batch)], rec.id = b.id ∧ rec.num_vehicles ≤ b.count) ∧
    (∀ b ∈ (allocGo 2023 "D1" "Electricity" 80 [⟨"BEV_S1_2023", 2⟩] 1).2, 0 ≤ b.count) ∧
    ((allocGo 2023 "D1" "Electricity" 80 [⟨"BEV_S1_2023", 2⟩] 1).1.map
        SubRow.num_vehicles).sum ≤ max 1 0 ∧
    ([(⟨"BEV_S1_2023", 2⟩ : Batch)].map Batch.count).sum =
      ((allocGo 2023 "D1" "Electricity" 80 [⟨"BEV_S1_2023", 2⟩] 1).2.map Batch.count).sum +
        ((allocGo 2023 "D1" "Electricity" 80 [⟨"BEV_S1_2023", 2⟩] 1).1.map
          SubRow.num_vehicles).sum :=
  C9_pool_allocation 2023 "D1" "Electricity" 80 [⟨"BEV_S1_2023", 2⟩] 1 (by decide)

theorem allocGo_fields (t : Int) (d f : String) (avg : ℚ) :
    ∀ (pool : List Batch) (rem : Int), ∀ rec ∈ (allocGo t d f avg pool rem).1,
      rec.year = t ∧ rec.rtype = "Use" ∧ rec.fuel = f ∧ rec.distance_bucket = d ∧
        rec.distance_per_vehicle = some avg := by
  intro pool
  induction pool with
  | nil =>
    intro rem rec h
    simp [allocGo] at h
  | cons item rest ih =>
    intro rem rec h
    by_cases hc : 0 < item.count ∧ 0 < rem
    · simp only [allocGo, if_pos hc] at h
      rcases List.mem_cons.mp h with rfl | h2
      · exact ⟨rfl, rfl, rfl, rfl, rfl⟩
      · exact ih _ rec h2
    · simp only [allocGo, if_neg hc] at h
      exact ih _ rec h

theorem processDuty_fields (t : Int) (d f : String) (needed : Int) (km : ℚ)
    (pool : List Batch) :
    ∀ rec ∈ (processDuty t d f needed km pool).1,
      rec.year = t ∧ rec.rtype = "Use" ∧ rec.fuel = f ∧ rec.distance_bucket = d ∧
        rec.distance_per_vehicle = some (km / (needed : ℚ)) := by
  intro rec h
  unfold processDuty at h
  by_cases hn : 0 < needed
  · rw [if_pos hn] at h
    exact allocGo_fields t d f _ pool needed rec h
  · rw [if_neg hn] at h
    simp at h

theorem processDuty_nonpos (t : Int) (d f : String) (needed : Int) (km : ℚ)
    (pool : List Batch) (h : needed ≤ 0) : processDuty t d f needed km pool = ([], pool) := by
  unfold processDuty
  rw [if_neg (by omega)]

theorem classUseGo_mem (x : Nat → ℚ) (t : Int) :
    ∀ (ds : List Duty) (acc : List SubRow × List Batch) (rec : SubRow),
      rec ∈ (classUseGo x t ds acc).1 →
      rec ∈ acc.1 ∨ ∃ dd ∈ ds, rec.fuel = dd.f ∧ rec.distance_bucket = dd.d ∧
        0 < iround (x dd.useIdx) := by
  intro ds
  induction ds with
  | nil =>
    intro acc rec h
    exact Or.inl h
  | cons dd rest ih =>
    intro acc rec h
    simp only [classUseGo] at h
    rcases ih _ rec h with hin | ⟨dd2, hdd2, hrest⟩
    · rcases List.mem_append.mp hin with h1 | h2
      · exact Or.inl h1
      · by_cases hn : 0 < iround (x dd.useIdx)
        · obtain ⟨-, -, hf, hd, -⟩ := processDuty_fields t dd.d dd.f _ _ acc.2 rec h2
          exact Or.inr ⟨dd, List.mem_cons_self _ _, hf, hd, hn⟩
        · rw [processDuty_nonpos _ _ _ _ _ _ (by omega)] at h2
          simp at h2
    · exact Or.inr ⟨dd2, List.mem_cons_of_mem _ hdd2, hrest⟩

/-- C10: the decoder computes the per-vehicle distance only under the
guard `needed > 0`; for a duty whose Use variable rounds to a
non-positive count, no Use record with that duty's fuel and distance
bucket is emitted for the class at all (and the guarded division is
never reached — `processDuty` returns the pool unchanged). -/
theorem C10_zero_use_no_record (I : Inputs) (vars : VarState) (x : Nat → ℚ) (t : Int)
    (v s d f : String)
    (h : iround (x (dget vars.use_vars (t, v, s, d, f))) ≤ 0) :
    ∀ rec ∈ classUseRows I vars x t v s, ¬(rec.fuel = f ∧ rec.distance_bucket = d) := by
  intro rec hrec hfd
  unfold classUseRows at hrec
  rcases classUseGo_mem x t _ _ rec hrec with h0 | ⟨dd, hdd, hf2, hd2, hpos⟩
  · simp at h0
  · obtain ⟨hu, -⟩ := duties_use I vars t v s dd hdd
    have hde : dd.d = d := by rw [← hd2, hfd.2]
    have hfe : dd.f = f := by rw [← hf2, hfd.1]
    rw [hde, hfe] at hu
    rw [dget_eq hu] at h
    omega

theorem C10_zero_use_no_record_witness :
    ¬((SubRow.mk 2023 "BEV_S1_2023" 1 "Use" "Electricity" "D2"
        (some ((50 : ℚ) / ((1 : Int) : ℚ)))).fuel = "Electricity" ∧
      (SubRow.mk 2023 "BEV_S1_2023" 1 "Use" "Electricity" "D2"
        (some ((50 : ℚ) / ((1 : Int) : ℚ)))).distance_bucket = "D1") :=
  C10_zero_use_no_record I10 V10 x10 2023 "BEV" "S1" "D1" "Electricity" (by decide)
    (SubRow.mk 2023 "BEV_S1_2023" 1 "Use" "Electricity" "D2"
      (some ((50 : ℚ) / ((1 : Int) : ℚ))))
    (List.mem_cons_self _ _)

/-- C7 (amended): every Use record of a duty carries the even share
`total_km / rounded-use` as its per-vehicle distance, and this share is
bounded by the yearly range used in the model's capacity link (the
usage-year range) provided the rounded count is positive and at least
the relaxed Use value.  When rounding decreases the Use value the share
can exceed the range by the factor `use / rounded-use` (see the
counterexample), so the bound needs that hypothesis rather than a small
tolerance. -/
theorem C7_dpv_range (t : Int) (d f : String) (u total_km rng : ℚ) (pool : List Batch)
    (hpos : 0 < iround u) (hup : u ≤ ((iround u : Int) : ℚ)) (hkm : total_km ≤ u * rng)
    (hrng : 0 ≤ rng) :
    ∀ rec ∈ (processDuty t d f (iround u) total_km pool).1,
      rec.distance_per_vehicle = some (total_km / ((iround u : Int) : ℚ)) ∧
        total_km / ((iround u : Int) : ℚ) ≤ rng := by
  have hc : (0 : ℚ) < ((iround u : Int) : ℚ) := by exact_mod_cast hpos
  have hb : total_km / ((iround u : Int) : ℚ) ≤ rng := by
    rw [div_le_iff₀ hc]
    calc total_km ≤ u * rng := hkm
      _ ≤ ((iround u : Int) : ℚ) * rng := mul_le_mul_of_nonneg_right hup hrng
      _ = rng * ((iround u : Int) : ℚ) := mul_comm _ _
  intro rec hrec
  obtain ⟨-, -, -, -, hdpv⟩ := processDuty_fields t d f (iround u) total_km pool rec hrec
  exact ⟨hdpv, hb⟩

theorem C7_dpv_range_witness :
    (SubRow.mk 2023 "BEV_S1_2023" 1 "Use" "Electricity" "D1"
        (some ((100 : ℚ) / ((iround 1 : Int) : ℚ)))).distance_per_vehicle =
      some ((100 : ℚ) / ((iround 1 : Int) : ℚ)) ∧
    (100 : ℚ) / ((iround 1 : Int) : ℚ) ≤ 100 :=
  C7_dpv_range 2023 "D1" "Electricity" 1 100 100 [⟨"BEV_S1_2023", 2⟩] (by decide)
    (by decide) (by simp) (by decide)
    (SubRow.mk 2023 "BEV_S1_2023" 1 "Use" "Electricity" "D1"
      (some ((100 : ℚ) / ((iround 1 : Int) : ℚ))))
    (List.mem_cons_self _ _)

/-- C5 (evidence): on `Iex` with the rounded-inconsistent assignment
`x5`, the year-2024 duty still needs one vehicle after rounding (its Use
variable rounds to 1) while the availability pool rounds to empty; the
decoder's entire output is the empty record list — it emits fewer
allocated vehicles than the Use count and produces no reconciliation
warning of any kind (the code has no warning channel at all). -/
theorem C5_silent_pool_depletion :
    (alookup Vex.use_vars (2024, "BEV", "S1", "D1", "Electricity")).isSome ∧
    iround (x5 (dget Vex.use_vars (2024, "BEV", "S1", "D1", "Electricity"))) = 1 ∧
    buildPool Vex x5 2024 "BEV" "S1" = [] ∧
    finalSubmission Iex Vex x5 = [] := by
  decide

/-! ## Decoder determinism (C6) -/

theorem buySellRows_congr (I : Inputs) (vars : VarState) {x1 x2 : Nat → ℚ}
    (hR : ∀ i, iround (x1 i) = iround (x2 i)) :
    buySellRows I vars x1 = buySellRows I vars x2 := by
  unfold buySellRows
  simp only [hR]

theorem buildPool_congr (vars : VarState) {x1 x2 : Nat → ℚ}
    (hR : ∀ i, iround (x1 i) = iround (x2 i)) (t : Int) (v s : String) :
    buildPool vars x1 t v s = buildPool vars x2 t v s := by
  unfold buildPool
  simp only [hR]

theorem classUseGo_congr {x1 x2 : Nat → ℚ} (hR : ∀ i, iround (x1 i) = iround (x2 i))
    (t : Int) :
    ∀ (ds : List Duty), (∀ dd ∈ ds, x1 dd.kmIdx = x2 dd.kmIdx) →
      ∀ acc, classUseGo x1 t ds acc = classUseGo x2 t ds acc := by
  intro ds
  induction ds with
  | nil =>
    intro _ acc
    rfl
  | cons dd rest ih =>
    intro h acc
    simp only [classUseGo]
    rw [hR dd.useIdx, h dd (List.mem_cons_self _ _)]
    exact ih (fun d2 hd2 => h d2 (List.mem_cons_of_mem _ hd2)) _

theorem duties_km_mem (I : Inputs) (t : Int) (v s : String) :
    ∀ dd ∈ duties I (createVars I) t v s,
      ((t, v, s, dd.d, dd.f), dd.kmIdx) ∈ (createVars I).km_vars := by
  intro dd hdd
  obtain ⟨hu, hkm⟩ := duties_use I (createVars I) t v s dd hdd
  have hks : (alookup (createVars I).km_vars (t, v, s, dd.d, dd.f)).isSome :=
    ((stOK_createVars I).link _).mp (by rw [hu]; rfl)
  obtain ⟨j, hj⟩ := Option.isSome_iff_exists.mp hks
  rw [hkm, dget_eq hj]
  exact alookup_mem hj

theorem classUseRows_congr (I : Inputs) {x1 x2 : Nat → ℚ}
    (hR : ∀ i, iround (x1 i) = iround (x2 i))
    (hK : ∀ p ∈ (createVars I).km_vars, x1 p.2 = x2 p.2) (t : Int) (v s : String) :
    classUseRows I (createVars I) x1 t v s = classUseRows I (createVars I) x2 t v s := by
  have hds : ∀ dd ∈ duties I (createVars I) t v s, x1 dd.kmIdx = x2 dd.kmIdx := by
    intro dd hdd
    exact hK _ (duties_km_mem I t v s dd hdd)
  unfold classUseRows
  rw [buildPool_congr (createVars I) hR t v s,
    classUseGo_congr hR t (duties I (createVars I) t v s) hds _]

theorem flatMap_congr {α β : Type} {l : List α} {f g : α → List β}
    (h : ∀ a ∈ l, f a = g a) : l.flatMap f = l.flatMap g := by
  induction l with
  | nil => rfl
  | cons a rest ih =>
    simp only [List.flatMap_cons]
    rw [h a (List.mem_cons_self _ _), ih (fun b hb => h b (List.mem_cons_of_mem _ hb))]

/-- C6: the decoder is a function of the rounded solver assignment — if
two assignments agree on every variable after rounding and agree exactly
on the Km variables (the only values the decoder reads unrounded), the
decoded plan records are identical in content and order.  In particular
two runs on an identical assignment produce identical output; the pool
is iterated in the fixed order built by `buildPool` (carried batches by
ascending age, then this year's purchase). -/
theorem C6_decoder_deterministic (I : Inputs) (x1 x2 : Nat → ℚ)
    (hR : ∀ i, iround (x1 i) = iround (x2 i))
    (hK : ∀ p ∈ (createVars I).km_vars, x1 p.2 = x2 p.2) :
    finalSubmission I (createVars I) x1 = finalSubmission I (createVars I) x2 := by
  unfold finalSubmission
  rw [buySellRows_congr I (createVars I) hR]
  congr 1
  unfold useRows
  refine flatMap_congr ?_
  intro t _
  refine flatMap_congr ?_
  intro v _
  refine flatMap_congr ?_
  intro s _
  exact classUseRows_congr I hR hK t v s

theorem C6_decoder_deterministic_witness :
    finalSubmission Iex (createVars Iex) (fun _ => (1 : ℚ)) =
      finalSubmission Iex (createVars Iex) (fun _ => (1 : ℚ)) :=
  C6_decoder_deterministic Iex (fun _ => (1 : ℚ)) (fun _ => (1 : ℚ))
    (fun _ => rfl) (fun _ _ => rfl)

/-- C7 (counterexample): on `Iex` with assignment `x7` the capacity
premise holds — `Km = 140 <= Use * range = (7/5) * 100` — yet the
decoder emits a Use record whose per-vehicle distance is `140 / 1 =
140`, exceeding the yearly range 100 (the vintage's and usage year's
range alike here) by 40%, far beyond any small tolerance: the Use count
`7/5` rounds down to 1 and the total distance is divided by the rounded
count.  The claim as stated is therefore false on the code. -/
theorem C7_range_counterexample :
    (SubRow.mk 2023 "BEV_S1_2023" 1 "Use" "Electricity" "D1"
        (some ((140 : ℚ) / ((1 : Int) : ℚ)))) ∈ finalSubmission Iex Vex x7 ∧
    (140 : ℚ) / ((1 : Int) : ℚ) = 140 ∧
    Iex.vehicle_range "BEV" "S1" 2023 = some 100 ∧
    (100 : ℚ) + 1 < 140 ∧
    x7 (dget Vex.km_vars (2023, "BEV", "S1", "D1", "Electricity")) ≤
      x7 (dget Vex.use_vars (2023, "BEV", "S1", "D1", "Electricity")) * 100 ∧
    iround (x7 (dget Vex.use_vars (2023, "BEV", "S1", "D1", "Electricity"))) = 1 := by
  have hlist : finalSubmission Iex Vex x7 =
      [⟨2023, "BEV_S1_2023", 2, "Buy", "", "", none⟩,
       ⟨2023, "BEV_S1_2023", 1, "Use", "Electricity", "D1",
         some ((140 : ℚ) / ((1 : Int) : ℚ))⟩] := by rfl
  have hkm : x7 (dget Vex.km_vars (2023, "BEV", "S1", "D1", "Electricity")) = 140 := by decide
  have hus : x7 (dget Vex.use_vars (2023, "BEV", "S1", "D1", "Electricity")) =
      Rat.divInt 7 5 := by decide
  refine ⟨?_, by norm_num, by decide, by norm_num, ?_, by decide⟩
  · rw [hlist]
    exact List.mem_cons_of_mem _ (List.mem_cons_self _ _)
  · rw [hkm, hus, Rat.divInt_eq_div]
    norm_num
